import Mathlib

/-!
Verification of the yjs thoughtspace replication core
(src/data-providers/yjs/thoughtspace.ts).

The embedding models the module-level caches (thoughtDocs, lexemeDocs,
persistence, websocket providers, sync promises, retained sets, docKeys) as a
single state record, JS Maps as insertion-ordered association lists, JS Sets as
insertion-ordered lists, and the cooperative single-threaded concurrency of the
JS event loop by treating the synchronous prefix of each async function (up to
its first `await`) as one atomic step.
-/

namespace Em

/-! ## Association lists and sets, modelling JS Map / Set -/

/-- JS Map.get: the value of the first (unique) entry with the given key. -/
def mapGet {V : Type} : List (String × V) → String → Option V
  | [], _ => none
  | (k', v) :: rest, k => if k' = k then some v else mapGet rest k

/-- JS Map.set: replaces the value at an existing key in place, otherwise appends. -/
def mapSet {V : Type} : List (String × V) → String → V → List (String × V)
  | [], k, v => [(k, v)]
  | (k', v') :: rest, k, v =>
    if k' = k then (k, v) :: mapSet rest k v else (k', v') :: mapSet rest k v

/-- JS Map.delete: removes the entry with the given key. -/
def mapDel {V : Type} : List (String × V) → String → List (String × V)
  | [], _ => []
  | (k', v') :: rest, k => if k' = k then mapDel rest k else (k', v') :: mapDel rest k

/-- JS Set.has. -/
def setMem : List String → String → Bool
  | [], _ => false
  | k' :: rest, k => k' = k || setMem rest k

/-- JS Set.add: appends if not already present. -/
def setAdd (s : List String) (k : String) : List String :=
  if setMem s k then s else s ++ [k]

/-- JS Set.delete. -/
def setDel : List String → String → List String
  | [], _ => []
  | k' :: rest, k => if k' = k then setDel rest k else k' :: setDel rest k

/-! ## JS string helpers -/

/-- Whether the first list is a prefix of the second. -/
def isPre : List Char → List Char → Bool
  | [], _ => true
  | _ :: _, [] => false
  | a :: as, b :: bs => a = b && isPre as bs

/-- Splits a list at the first occurrence of the separator, returning the part
before it and the part after it; `none` if the separator does not occur. -/
def splitFirst (sep : List Char) : List Char → Option (List Char × List Char)
  | [] => none
  | c :: rest =>
    if isPre sep (c :: rest) then some ([], (c :: rest).drop sep.length)
    else
      match splitFirst sep rest with
      | none => none
      | some (a, b) => some (c :: a, b)

/-- JS `s.includes(sub)` for a non-empty search string. -/
def containsSub (sub s : String) : Bool :=
  (splitFirst sub.data s.data).isSome

/-- JS `s.split(sep)[1]`: the piece between the first and second occurrence of
the separator (to the end if the separator occurs only once); undefined (none)
when the separator does not occur. -/
def jsSplitSecond (sep s : List Char) : Option (List Char) :=
  match splitFirst sep s with
  | none => none
  | some (_, tail) =>
    match splitFirst sep tail with
    | none => some tail
    | some (a, _) => some a

/-- JS `key.split('cx-')[1]` as used by getLexeme and replicateLexeme. -/
def splitCx (k : String) : Option String :=
  (jsSplitSecond ("cx-".data) k.data).map (fun cs => String.mk cs)

/-- The truthy cxid extracted from a lexeme map key: `key.split('cx-')[1]`
followed by the JS truthiness test `if (cxid)` (an empty string is falsy). -/
def cxidOf (k : String) : Option String :=
  match splitCx k with
  | none => none
  | some c => if c = "" then none else some c

/-- A context id is well formed when it is non-empty and does not itself contain
the reserved `cx-` separator (thought ids are alphanumeric, so this holds). -/
def goodCxid (c : String) : Bool :=
  !(c == "") && (splitFirst ("cx-".data) c.data).isNone

/-! ## Constants (thoughtspace.ts lines 123-127) -/

/-- Number of milliseconds after which to retry a failed IndexeddbPersistence sync. -/
def IDB_ERROR_RETRY : Nat := 1000

/-- Number of milliseconds to throttle dispatching updateThoughts on thought/lexeme change. -/
def UPDATE_THOUGHTS_THROTTLE : Nat := 100

/-- Modelled from the spec: the special context tokens and the reserved
root-parent sentinel are imported from src/constants.ts, which is not included
under src/. The spec (section 3) describes them as reserved sentinel values;
the concrete spellings below only need to be distinct strings. -/
def HOME_TOKEN : String := "__ROOT__"

/-- Modelled from the spec: see HOME_TOKEN. -/
def EM_TOKEN : String := "__EM__"

/-- Modelled from the spec: see HOME_TOKEN. -/
def ABSOLUTE_TOKEN : String := "__ABSOLUTE__"

/-- Modelled from the spec: see HOME_TOKEN. -/
def ROOT_PARENT_ID : String := "__ROOT_PARENT_ID__"

/-! ## Errors and the storage catch handlers -/

/-- A JavaScript Error value as inspected by the catch handlers in thoughtspace.ts. -/
structure JsError where
  name : String
  message : String
  deriving DecidableEq

/-- The AbortError test used by every idbSynced catch handler:
`e.name === 'AbortError' || e.message.includes('[AbortError]')`. -/
def isAbortError (e : JsError) : Bool :=
  e.name == "AbortError" || containsSub "[AbortError]" e.message

/-- What a storage catch handler does: schedule a single retry of the same
operation after a fixed delay, or surface a message to the onError collaborator.
There is no constructor for rethrowing: the handlers return normally. -/
inductive IdbCatchOutcome
  | scheduleRetry (delayMs : Nat)
  | surfaceError (message : String)
  deriving DecidableEq

/-- The idbSynced catch handler of replicateChildren (lines 834-845): on
AbortError it frees the doc and schedules one retry of
`replicateChildren(docKey, ...)` after IDB_ERROR_RETRY ms; any other error is
reported via onError. The handler never rethrows. -/
def replicateChildrenIdbCatch (docKey : String) (e : JsError) : IdbCatchOutcome :=
  if isAbortError e then .scheduleRetry IDB_ERROR_RETRY
  else .surfaceError ("Error loading thought " ++ docKey ++ " from IndexedDB: " ++ e.message)

/-- The idbSynced catch handler of replicateLexeme (lines 1001-1012). -/
def replicateLexemeIdbCatch (key : String) (e : JsError) : IdbCatchOutcome :=
  if isAbortError e then .scheduleRetry IDB_ERROR_RETRY
  else .surfaceError ("Error loading lexeme " ++ key ++ ": " ++ e.message)

/-- Attaching `.catch(handler)` to whenSynced: a rejection is converted into a
resolved value carrying the handler's outcome, so the caller's promise chain
(`await idbSynced`) never rejects. -/
def idbSyncedChildrenResult (docKey : String) (r : Except JsError Unit) :
    Except JsError (Option IdbCatchOutcome) :=
  match r with
  | .ok _ => .ok none
  | .error e => .ok (some (replicateChildrenIdbCatch docKey e))

/-- See idbSyncedChildrenResult; the replicateLexeme analogue. -/
def idbSyncedLexemeResult (key : String) (r : Except JsError Unit) :
    Except JsError (Option IdbCatchOutcome) :=
  match r with
  | .ok _ => .ok none
  | .error e => .ok (some (replicateLexemeIdbCatch key e))

/-- Whether an Except is a success. -/
def exceptIsOk {ε α : Type} : Except ε α → Bool
  | .ok _ => true
  | .error _ => false

/-- Whether an Except is an error. -/
def isErr {ε α : Type} : Except ε α → Bool
  | .ok _ => false
  | .error _ => true

/-- The try/catch tail of deleteThought (lines 1237-1249): a NotFoundError from
clearing the IndexedDB store (target already absent) is swallowed and the
promise resolves normally; any other error is rethrown. -/
def deleteThoughtCatch (r : Except JsError Unit) : Except JsError Unit :=
  match r with
  | .ok _ => .ok ()
  | .error e => if e.name == "NotFoundError" then .ok () else .error e

/-- The try/catch tail of deleteLexeme (lines 1299-1310); same handler as deleteThought. -/
def deleteLexemeCatch (r : Except JsError Unit) : Except JsError Unit :=
  match r with
  | .ok _ => .ok ()
  | .error e => if e.name == "NotFoundError" then .ok () else .error e

/-- The docKey precondition of replicateThought (lines 726-729): a thought id
with no entry in the docKeys index rejects with a missing-docKey error. -/
def replicateThoughtDocKeyCheck (id : String) (docKeys : List (String × String)) :
    Except String String :=
  match mapGet docKeys id with
  | none => .error ("replicateThought: Missing docKey for thought " ++ id)
  | some docKey => .ok docKey

/-! ## Lexeme codec (updateLexeme transact, getLexeme, replicateLexeme docKeys) -/

/-- A value stored in a lexeme Y.Map: timestamps are numbers, updatedBy and the
per-context docKeys are strings (type LexemeYjs in the source). -/
inductive YVal
  | str (s : String)
  | num (n : Nat)
  deriving DecidableEq

/-- The content of a lexeme Y.Doc's top-level Y.Map, in insertion order. -/
abbrev LexemeMap := List (String × YVal)

/-- The application Lexeme record; its fields are exactly the keys enumerated by
lexemeKeyToDb (lines 152-157): contexts, created, lastUpdated, updatedBy. -/
structure Lexeme where
  contexts : List String
  created : Nat
  lastUpdated : Nat
  updatedBy : String
  deriving DecidableEq

/-- lexemeKeyFromDb (lines 160-165): maps LexemeDb keys to Lexeme keys. -/
def lexemeKeyFromDb (k : String) : Option String :=
  if k = "c" then some "created"
  else if k = "l" then some "lastUpdated"
  else if k = "x" then some "contexts"
  else if k = "u" then some "updatedBy"
  else none

/-- The scalar branch of the updateLexeme transact (lines 636-643): the new
value is compared against `lexemeMap.get(key)` under the unaliased application
key (as in the source), and written under its LexemeDb alias when different. -/
def updateLexemeScalar (m : LexemeMap) (jsKey dbKey : String) (v : YVal) : LexemeMap :=
  if some v ≠ mapGet m jsKey then mapSet m dbKey v else m

/-- The add-contexts loop of the updateLexeme transact (lines 616-626): for
each context of lexemeNew not present in contextsOld, writes a `cx-<cxid>`
field holding that context's docKey, throwing when the docKey is missing from
the index. -/
def addCxLoop (docKeys : List (String × String)) (contextsOld : List String) :
    List String → LexemeMap → Except String LexemeMap
  | [], m => .ok m
  | cxid :: rest, m =>
    if setMem contextsOld cxid then addCxLoop docKeys contextsOld rest m
    else
      match mapGet docKeys cxid with
      | none => .error ("updateLexeme: Missing docKey for context " ++ cxid ++ " in Lexeme.")
      | some docKey => addCxLoop docKeys contextsOld rest (mapSet m ("cx-" ++ cxid) (.str docKey))

/-- The contexts branch of the updateLexeme transact (lines 611-633): runs the
add-contexts loop, then deletes the `cx-` field of each context present in
lexemeOld but not in lexemeNew. -/
def updateLexemeContexts (docKeys : List (String × String))
    (contextsOld contextsNew : List String) (m : LexemeMap) : Except String LexemeMap :=
  (addCxLoop docKeys contextsOld contextsNew m).map (fun mAdded =>
    contextsOld.foldl (fun acc cxid =>
      if setMem contextsNew cxid then acc else mapDel acc ("cx-" ++ cxid)) mAdded)

/-- The transact body of updateLexeme (lines 608-657): iterates the keys of
lexemeNew; the contexts key is reconciled key-by-key as cx- fields, scalar keys
are written via the scalar branch. -/
def updateLexemeTransact (docKeys : List (String × String)) (lexemeOld : Option Lexeme)
    (lexemeNew : Lexeme) (m : LexemeMap) : Except String LexemeMap :=
  (updateLexemeContexts docKeys ((lexemeOld.map (fun l => l.contexts)).getD [])
      lexemeNew.contexts m).map (fun m1 =>
    updateLexemeScalar
      (updateLexemeScalar
        (updateLexemeScalar m1 "created" "c" (.num lexemeNew.created))
        "lastUpdated" "l" (.num lexemeNew.lastUpdated))
      "updatedBy" "u" (.str lexemeNew.updatedBy))

/-- A dynamic JS value inside the object built by the getLexeme reduce. -/
inductive JsValue
  | str (s : String)
  | num (n : Nat)
  | arr (a : List String)
  deriving DecidableEq

/-- Injection of a stored Y.Map value into the getLexeme accumulator object. -/
def jsOfYVal : YVal → JsValue
  | .str s => .str s
  | .num n => .num n

/-- One step of the getLexeme reduce (lines 1133-1153): a key with a truthy
`cx-` suffix appends its cxid to the contexts array; any other key is assigned
under its application alias (an unknown alias becomes the JS key "undefined"). -/
def getLexemeStep (acc : List (String × JsValue)) (kv : String × YVal) :
    List (String × JsValue) :=
  match cxidOf kv.1 with
  | some cxid =>
    let old := match mapGet acc "contexts" with
      | some (.arr a) => a
      | _ => []
    mapSet acc "contexts" (.arr (old ++ [cxid]))
  | none => mapSet acc ((lexemeKeyFromDb kv.1).getD "undefined") (jsOfYVal kv.2)

/-- getLexeme (lines 1125-1156): undefined when the map is empty, otherwise the
reduce of all entries starting from the partial object with empty contexts. -/
def getLexemeObj (m : LexemeMap) : Option (List (String × JsValue)) :=
  if m.isEmpty then none
  else some (m.foldl getLexemeStep [("contexts", .arr [])])

/-- The contexts array of a getLexeme result object. -/
def lexContexts (o : List (String × JsValue)) : List String :=
  match mapGet o "contexts" with
  | some (.arr a) => a
  | _ => []

/-- JS coercion of a stored value to a string (the source casts the raw value
`as ThoughtId`; all values written to cx- fields are strings). -/
def strOfY : YVal → String
  | .str s => s
  | .num n => toString n

/-- replicateLexeme lines 1063-1073: after replication, re-populates the docKeys
index with cxid → docKey from every truthy `cx-` field of the lexeme map. -/
def replicateLexemeSetDocKeys (m : LexemeMap) (docKeys : List (String × String)) :
    List (String × String) :=
  m.foldl (fun dk kv =>
    match cxidOf kv.1 with
    | some cxid => mapSet dk cxid (strOfY kv.2)
    | none => dk) docKeys

/-- The cxids of a lexeme map's keys, in insertion order. -/
def filterMapCx (m : LexemeMap) : List String :=
  m.filterMap (fun kv => cxidOf kv.1)

/-- The pure form of the add-contexts fold of updateLexemeContexts when no
context is skipped and every docKey lookup succeeds. -/
def addCxFold (docKeys : List (String × String)) (cs : List String) (m : LexemeMap) :
    LexemeMap :=
  cs.foldl (fun acc c => mapSet acc ("cx-" ++ c) (.str ((mapGet docKeys c).getD ""))) m

/-! ## Thought records -/

/-- The application Thought record; its fields are exactly those read by
thoughtToDb (lines 202-211). -/
structure Thought where
  id : String
  parentId : String
  rank : Int
  value : String
  created : Nat
  lastUpdated : Nat
  updatedBy : String
  archived : Option Nat
  childrenMap : List (String × String)
  deriving DecidableEq

/-- A thought Y.Doc: its guid and its 'children' Y.Map of per-thought field maps. -/
structure YDocT where
  guid : String
  children : List (String × List (String × YVal)) := []
  deriving DecidableEq

/-- Modelled from the spec: encodeThoughtDocumentName
(./documentNameEncoder, not under src/) derives a deterministic document name
from the space id and the shard key (spec section 6). -/
def encodeThoughtDocumentName (tsid docKey : String) : String :=
  tsid ++ "/thought/" ++ docKey

/-- The lexeme document name; the source states the format
`tsid/lexeme/key` (comment at lines 686-687). -/
def encodeLexemeDocumentName (tsid key : String) : String :=
  tsid ++ "/lexeme/" ++ key

/-! ## Module state and the replicate / free operations -/

/-- The module-level caches of thoughtspace.ts (lines 217-236). -/
structure TSState where
  thoughtDocs : List (String × YDocT) := []
  thoughtPersistence : List String := []
  thoughtRetained : List String := []
  thoughtWebsocketProvider : List String := []
  thoughtIDBSynced : List String := []
  thoughtWebsocketSynced : List String := []
  lexemeDocs : List (String × LexemeMap) := []
  lexemePersistence : List String := []
  lexemeRetained : List String := []
  lexemeWebsocketProvider : List String := []
  lexemeIDBSynced : List String := []
  lexemeWebsocketSynced : List String := []
  docKeys : List (String × String) := []
  deriving DecidableEq

/-- Resource-creation and sync events, used to count created documents and
providers and to compare creation order against local-cache durability. -/
inductive REvent
  | createDoc (name : String)
  | createPersistence (name : String)
  | createWebsocketProvider (name : String)
  | idbSyncComplete (name : String)
  deriving DecidableEq

/-- The background/remote options of replicateChildren (lines 744-750). -/
structure ReplicateOptions where
  background : Bool := false
  remote : Bool := true
  deriving DecidableEq

/-- The synchronous phase of replicateChildren (lines 740-899): everything the
function executes before its first suspension point, assuming config is already
cached (post-init). It reuses a cached doc when present; otherwise it creates
the Y.Doc, the IndexeddbPersistence and (when remote) the HocuspocusProvider,
and inserts the doc, both sync promises, the persistence and the provider into
the module caches synchronously, before `await idbSynced`. Returns the new
state, the creation events, and whether the fresh-creation branch was taken. -/
def replicateChildrenSync (testMode : Bool) (tsid docKey : String)
    (opts : ReplicateOptions) (s : TSState) : TSState × List REvent × Bool :=
  let documentName := encodeThoughtDocumentName tsid docKey
  let cached := mapGet s.thoughtDocs docKey
  let doc := cached.getD { guid := documentName }
  let docEvents := if cached.isSome then [] else [REvent.createDoc documentName]
  let s1 := if !opts.background then
    { s with thoughtRetained := setAdd s.thoughtRetained docKey } else s
  if cached.isSome || testMode then
    (s1, docEvents, false)
  else
    let s2 := { s1 with
      thoughtDocs := mapSet s1.thoughtDocs docKey doc,
      thoughtIDBSynced := setAdd s1.thoughtIDBSynced docKey,
      thoughtPersistence := setAdd s1.thoughtPersistence docKey,
      thoughtWebsocketProvider :=
        if opts.remote then setAdd s1.thoughtWebsocketProvider docKey
        else s1.thoughtWebsocketProvider,
      thoughtWebsocketSynced :=
        if opts.remote then setAdd s1.thoughtWebsocketSynced docKey
        else s1.thoughtWebsocketSynced }
    (s2,
      docEvents ++ [REvent.createPersistence documentName] ++
        (if opts.remote then [REvent.createWebsocketProvider documentName] else []),
      true)

/-- The result marker of replicateLexeme's synchronous phase. -/
inductive LexPhase
  | specialToken
  | cachedWait
  | created
  deriving DecidableEq

/-- The synchronous phase of replicateLexeme (lines 951-1034): returns undefined
immediately for the special context tokens; otherwise reuses a cached doc, or
creates the Y.Doc, IndexeddbPersistence and HocuspocusProvider and caches the
doc, both sync promises and both providers synchronously before `await
idbSynced`. -/
def replicateLexemeSync (testMode : Bool) (tsid key : String) (background : Bool)
    (s : TSState) : TSState × List REvent × LexPhase :=
  if key = HOME_TOKEN ∨ key = EM_TOKEN ∨ key = ABSOLUTE_TOKEN then (s, [], .specialToken)
  else
    let documentName := encodeLexemeDocumentName tsid key
    let cached := mapGet s.lexemeDocs key
    let docEvents := if cached.isSome then [] else [REvent.createDoc documentName]
    let s1 := if !background then
      { s with lexemeRetained := setAdd s.lexemeRetained key } else s
    if cached.isSome || testMode then
      (s1, docEvents, .cachedWait)
    else
      let s2 := { s1 with
        lexemeDocs := mapSet s1.lexemeDocs key (cached.getD []),
        lexemeIDBSynced := setAdd s1.lexemeIDBSynced key,
        lexemePersistence := setAdd s1.lexemePersistence key,
        lexemeWebsocketSynced := setAdd s1.lexemeWebsocketSynced key,
        lexemeWebsocketProvider := setAdd s1.lexemeWebsocketProvider key }
      (s2,
        docEvents ++ [REvent.createPersistence documentName,
          REvent.createWebsocketProvider documentName],
        .created)

/-- N sequential executions of the synchronous phase of replicateChildren for
the same key: the cooperative scheduler runs each concurrent caller's
synchronous prefix atomically, in some order. Returns the final state and the
concatenation of all creation events. -/
def runReplicateChildren (testMode : Bool) (tsid docKey : String)
    (opts : ReplicateOptions) : Nat → TSState → TSState × List REvent
  | 0, s => (s, [])
  | n + 1, s =>
    let r := replicateChildrenSync testMode tsid docKey opts s
    let rest := runReplicateChildren testMode tsid docKey opts n r.1
    (rest.1, r.2.1 ++ rest.2)

/-- N sequential executions of the synchronous phase of replicateLexeme. -/
def runReplicateLexeme (testMode : Bool) (tsid key : String) (background : Bool) :
    Nat → TSState → TSState × List REvent
  | 0, s => (s, [])
  | n + 1, s =>
    let r := replicateLexemeSync testMode tsid key background s
    let rest := runReplicateLexeme testMode tsid key background n r.1
    (rest.1, r.2.1 ++ rest.2)

/-- The synchronous prefix of freeThought (line 1162): removes the key from the
retained set, then suspends on `await thoughtIDBSynced.get(docKey)`. -/
def freeThoughtPhase1 (docKey : String) (s : TSState) : TSState :=
  { s with thoughtRetained := setDel s.thoughtRetained docKey }

/-- tryDeallocateThought (lines 1176-1212): re-checks the retained set
immediately before any destructive action and is a no-op when the key is
present; otherwise removes the children's docKeys and destroys the doc and
providers, purging all five caches. -/
def tryDeallocateThought (docKey : String) (s : TSState) : TSState :=
  if setMem s.thoughtRetained docKey then s
  else
    let doc := (mapGet s.thoughtDocs docKey).getD { guid := "" }
    let docKeys' := doc.children.foldl (fun dk kv =>
      match mapGet kv.2 "id" with
      | some (.str childId) => mapDel dk childId
      | _ => dk) s.docKeys
    { s with
      docKeys := docKeys',
      thoughtDocs := mapDel s.thoughtDocs docKey,
      thoughtPersistence := setDel s.thoughtPersistence docKey,
      thoughtIDBSynced := setDel s.thoughtIDBSynced docKey,
      thoughtWebsocketProvider := setDel s.thoughtWebsocketProvider docKey,
      thoughtWebsocketSynced := setDel s.thoughtWebsocketSynced docKey }

/-- The synchronous prefix of freeLexeme (line 1254). -/
def freeLexemePhase1 (key : String) (s : TSState) : TSState :=
  { s with lexemeRetained := setDel s.lexemeRetained key }

/-- tryDeallocateLexeme (lines 1265-1286): no-op when the key is retained;
otherwise destroys the doc and websocket provider and purges all five caches. -/
def tryDeallocateLexeme (key : String) (s : TSState) : TSState :=
  if setMem s.lexemeRetained key then s
  else
    { s with
      lexemeDocs := mapDel s.lexemeDocs key,
      lexemePersistence := setDel s.lexemePersistence key,
      lexemeIDBSynced := setDel s.lexemeIDBSynced key,
      lexemeWebsocketProvider := setDel s.lexemeWebsocketProvider key,
      lexemeWebsocketSynced := setDel s.lexemeWebsocketSynced key }

/-- The race of spec section 4.5 / claim C2, scheduled by the cooperative event
loop: freeThought removes the key from the retained set and suspends on the IDB
sync promise; during that suspension a foreground replicateChildren for the
same key runs its synchronous phase (re-retaining the key); teardown
(tryDeallocateThought) runs afterwards. This is the state right before
teardown. -/
def freeThoughtRace (tsid docKey : String) (s : TSState) : TSState :=
  (replicateChildrenSync false tsid docKey {} (freeThoughtPhase1 docKey s)).1

/-- The freeLexeme analogue of freeThoughtRace. -/
def freeLexemeRace (tsid key : String) (s : TSState) : TSState :=
  (replicateLexemeSync false tsid key false (freeLexemePhase1 key s)).1

/-! ## Creation-order traces (local durability vs remote sync) -/

/-- A full run of replicateChildren on a key: the events of the synchronous
phase followed, in the fresh-creation case, by the IndexedDB sync completion.
In the single-threaded event loop, whenSynced can only resolve after the
synchronous block (which constructs the HocuspocusProvider at line 848) has
finished, so idbSyncComplete is appended after all synchronous events. -/
def replicateChildrenRunEvents (tsid docKey : String) (opts : ReplicateOptions)
    (s : TSState) : List REvent :=
  let r := replicateChildrenSync false tsid docKey opts s
  r.2.1 ++ (if r.2.2 then [REvent.idbSyncComplete (encodeThoughtDocumentName tsid docKey)] else [])

/-- A full run of replicateLexeme on a key; see replicateChildrenRunEvents.
The HocuspocusProvider is constructed at line 1014, before `await idbSynced`. -/
def replicateLexemeRunEvents (tsid key : String) (background : Bool)
    (s : TSState) : List REvent :=
  let r := replicateLexemeSync false tsid key background s
  r.2.1 ++ (if r.2.2 = .created then [REvent.idbSyncComplete (encodeLexemeDocumentName tsid key)] else [])

/-- The doclog subdocs handler in init (lines 292-316): for each loaded block an
IndexeddbPersistence is created, and the HocuspocusProvider is created only
inside `persistence.whenSynced.then`, after local durability is reported. -/
def doclogBlockLoadEvents (guid : String) : List REvent :=
  [.createPersistence guid, .idbSyncComplete guid, .createWebsocketProvider guid]

/-- The doclog main document load in init (lines 319-347): the HocuspocusProvider
is created inside `doclogPersistence.whenSynced.then`. -/
def doclogLoadEvents (guid : String) : List REvent :=
  [.createPersistence guid, .idbSyncComplete guid, .createWebsocketProvider guid]

/-- The index of the first occurrence of an event in a trace (length if absent). -/
def idxOfAux (e : REvent) : List REvent → Nat
  | [] => 0
  | x :: rest => if x = e then 0 else idxOfAux e rest + 1

/-- Whether, in the given trace, the websocket provider for the named document
is created only after its IndexedDB persistence has reported synced. -/
def wsCreatedAfterIdbSynced (evs : List REvent) (name : String) : Prop :=
  idxOfAux (.idbSyncComplete name) evs < idxOfAux (.createWebsocketProvider name) evs

/-! ## updateThought -/

/-- updateThought (lines 440-566): the body's first statement is
`return Promise.resolve()` (line 441), so the call resolves immediately; the
merge/transaction code below it is unreachable (and largely commented out).
No module state is touched and no IndexedDB sync is awaited. -/
def updateThought (id : String) (thought : Thought) (s : TSState) : TSState × Unit :=
  (s, ())

/-! ## Change notification batcher -/

/-- A change batch delivered to the application (PushBatch as used at lines
186-199 and 368-376): null markers record explicit deletions. -/
structure PushBatch where
  thoughtIndexUpdates : List (String × Option Thought) := []
  lexemeIndexUpdates : List (String × Option Lexeme) := []
  lexemeIndexUpdatesOld : List (String × Lexeme) := []
  deriving DecidableEq

/-- The empty initial batch of the reduce at lines 187-191. -/
def emptyPushBatch : PushBatch := {}

/-- Modelled from the spec: mergeBatch (src/util/mergeBatch.ts, not under src/)
merges a later batch into an earlier one; later values for the same key
override earlier ones (spec section 4.6). -/
def overrideMerge {V : Type} (xs ys : List (String × V)) : List (String × V) :=
  ys.foldl (fun acc kv => mapSet acc kv.1 kv.2) xs

/-- Modelled from the spec: see overrideMerge. -/
def mergeBatch (a b : PushBatch) : PushBatch :=
  { thoughtIndexUpdates := overrideMerge a.thoughtIndexUpdates b.thoughtIndexUpdates,
    lexemeIndexUpdates := overrideMerge a.lexemeIndexUpdates b.lexemeIndexUpdates,
    lexemeIndexUpdatesOld := overrideMerge a.lexemeIndexUpdatesOld b.lexemeIndexUpdatesOld }

/-- How a merged batch is handed to the application: inline with the triggering
mutation, or on a later scheduler tick. -/
inductive Dispatch
  | inline (merged : PushBatch)
  | nextTick (merged : PushBatch)
  deriving DecidableEq

/-- The throttled updateThoughts callback (lines 186-199): reduces all batches
of the window with mergeBatch starting from the empty batch and dispatches the
merged batch inside `setTimeout`, i.e. on the next tick, never inline. -/
def updateThoughtsCallback (batches : List PushBatch) : Dispatch :=
  .nextTick (batches.foldl mergeBatch emptyPushBatch)

/-- Modelled from the spec: throttleConcat (src/util/throttleConcat.ts, not
under src/) accumulates every value submitted during a throttle window and
invokes the callback once per window with all accumulated values (spec section
4.6). Submissions are (timestamp, value) pairs; a window opens at its first
submission and spans w milliseconds. The fuel argument bounds recursion by the
number of submissions. -/
def throttleWindowsAux {α : Type} (w : Nat) : Nat → List (Nat × α) → List (List α)
  | _, [] => []
  | 0, _ :: _ => []
  | fuel + 1, (t, a) :: rest =>
    (a :: (rest.takeWhile (fun p => decide (p.1 < t + w))).map Prod.snd) ::
      throttleWindowsAux w fuel (rest.dropWhile (fun p => decide (p.1 < t + w)))

/-- Modelled from the spec: see throttleWindowsAux. -/
def throttleWindows {α : Type} (w : Nat) (inputs : List (Nat × α)) : List (List α) :=
  throttleWindowsAux w inputs.length inputs

/-- The deliveries produced by the batcher for a sequence of timed submissions:
one callback invocation per throttle window. -/
def throttleConcatDeliveries (w : Nat) (inputs : List (Nat × PushBatch)) : List Dispatch :=
  (throttleWindows w inputs).map updateThoughtsCallback

/-- The last value associated with a key in an association list: later entries
override earlier ones. -/
def lastAssoc {V : Type} : List (String × V) → String → Option V
  | [], _ => none
  | (k', v) :: rest, k =>
    match lastAssoc rest k with
    | some v' => some v'
    | none => if k' = k then some v else none

/-- The last value associated with a key across a sequence of association
lists: later lists, and later entries within one list, override earlier ones. -/
def lastAssocs {V : Type} : List (List (String × V)) → String → Option V
  | [], _ => none
  | l :: rest, k =>
    match lastAssocs rest k with
    | some v => some v
    | none => lastAssoc l k

/-! ## Basic lemmas about the map and set operations -/

theorem mapGet_mapSet_self {V : Type} (m : List (String × V)) (k : String) (v : V) :
    mapGet (mapSet m k v) k = some v := by
  induction m with
  | nil => simp [mapGet, mapSet]
  | cons kv rest ih =>
    obtain ⟨k', v'⟩ := kv
    by_cases h : k' = k <;> simp [mapGet, mapSet, h, ih]

theorem mapGet_mapSet_ne {V : Type} (m : List (String × V)) {k k' : String} (v : V)
    (h : k' ≠ k) : mapGet (mapSet m k v) k' = mapGet m k' := by
  have hks : ¬k = k' := fun hh => h hh.symm
  induction m with
  | nil => simp [mapGet, mapSet, hks]
  | cons kv rest ih =>
    obtain ⟨k₁, v₁⟩ := kv
    by_cases h₁ : k₁ = k
    · subst h₁
      simp [mapGet, mapSet, hks, ih]
    · simp [mapGet, mapSet, h₁, ih]

theorem mapGet_mem {V : Type} {m : List (String × V)} {k : String} {v : V}
    (h : mapGet m k = some v) : (k, v) ∈ m := by
  induction m with
  | nil => simp [mapGet] at h
  | cons kv rest ih =>
    obtain ⟨k₁, v₁⟩ := kv
    by_cases h₁ : k₁ = k
    · subst h₁
      simp [mapGet] at h
      simp [h]
    · simp [mapGet, h₁] at h
      exact List.mem_cons_of_mem _ (ih h)

theorem mem_mapSet {V : Type} {m : List (String × V)} {k : String} {v : V} {kv : String × V}
    (h : kv ∈ mapSet m k v) : kv ∈ m ∨ kv = (k, v) := by
  induction m with
  | nil => simp [mapSet] at h; simp [h]
  | cons kv₁ rest ih =>
    obtain ⟨k₁, v₁⟩ := kv₁
    by_cases h₁ : k₁ = k
    · simp [mapSet, h₁] at h
      rcases h with h | h
      · right; simp [h]
      · rcases ih h with h' | h'
        · left; exact List.mem_cons_of_mem _ h'
        · right; exact h'
    · simp [mapSet, h₁] at h
      rcases h with h | h
      · left; simp [h]
      · rcases ih h with h' | h'
        · left; exact List.mem_cons_of_mem _ h'
        · right; exact h'

theorem setMem_setAdd_self (s : List String) (k : String) :
    setMem (setAdd s k) k = true := by
  unfold setAdd
  by_cases h : setMem s k = true
  · simp [h]
  · simp [h]
    have : ∀ l : List String, setMem (l ++ [k]) k = true := by
      intro l
      induction l with
      | nil => simp [setMem]
      | cons x rest ih => simp [setMem, ih]
    exact this s

/-! ## Claim theorems -/

/-- C3: the claim is falsified by the code. updateThought's first statement is
`return Promise.resolve()` (thoughtspace.ts line 441), so for every thought id
and record the call resolves immediately, leaving the module state — including
the resident document — completely unchanged, and without awaiting any
IndexedDB sync. -/
theorem C3_updateThought_short_circuits (id : String) (thought : Thought) (s : TSState) :
    (updateThought id thought s).1 = s := rfl

/-- C6: deleteThought and deleteLexeme treat an already-absent target as
success: a NotFoundError raised while clearing durable local storage is
swallowed and the returned promise resolves normally; a successful clear also
resolves; any other error is rethrown. -/
theorem C6_delete_not_found_is_success (e : JsError) (msg : String) :
    deleteThoughtCatch (.ok ()) = .ok () ∧
    deleteLexemeCatch (.ok ()) = .ok () ∧
    deleteThoughtCatch (.error ⟨"NotFoundError", msg⟩) = .ok () ∧
    deleteLexemeCatch (.error ⟨"NotFoundError", msg⟩) = .ok () ∧
    (e.name ≠ "NotFoundError" →
      deleteThoughtCatch (.error e) = .error e ∧ deleteLexemeCatch (.error e) = .error e) := by
  refine ⟨rfl, rfl, by simp [deleteThoughtCatch], by simp [deleteLexemeCatch], ?_⟩
  intro h
  constructor <;> simp [deleteThoughtCatch, deleteLexemeCatch, h]

theorem C6_delete_not_found_is_success_witness :
    (JsError.mk "QuotaExceededError" "disk full").name ≠ "NotFoundError" ∧
    deleteThoughtCatch (.error ⟨"QuotaExceededError", "disk full"⟩) =
      .error ⟨"QuotaExceededError", "disk full"⟩ ∧
    deleteThoughtCatch (.error ⟨"NotFoundError", "gone"⟩) = .ok () := by
  refine ⟨by decide, ?_, ?_⟩
  · exact ((C6_delete_not_found_is_success ⟨"QuotaExceededError", "disk full"⟩ "x").2.2.2.2
      (by decide)).1
  · exact (C6_delete_not_found_is_success ⟨"QuotaExceededError", "x"⟩ "gone").2.2.1

/-- C7: when a local-storage sync fails with a transient abort (AbortError by
name, or an [AbortError] mention in the message), both replication catch
handlers schedule exactly one retry after the fixed IDB_ERROR_RETRY backoff;
every other storage error is surfaced to the onError collaborator; and in both
cases the `.catch` converts the rejection into a resolution, so the caller's
promise chain never rejects. -/
theorem C7_transient_abort_retry (docKey key : String) (e : JsError) :
    (isAbortError e = true →
      replicateChildrenIdbCatch docKey e = .scheduleRetry IDB_ERROR_RETRY ∧
      replicateLexemeIdbCatch key e = .scheduleRetry IDB_ERROR_RETRY) ∧
    (isAbortError e = false →
      replicateChildrenIdbCatch docKey e =
        .surfaceError ("Error loading thought " ++ docKey ++ " from IndexedDB: " ++ e.message) ∧
      replicateLexemeIdbCatch key e =
        .surfaceError ("Error loading lexeme " ++ key ++ ": " ++ e.message)) ∧
    exceptIsOk (idbSyncedChildrenResult docKey (.error e)) = true ∧
    exceptIsOk (idbSyncedLexemeResult key (.error e)) = true := by
  refine ⟨?_, ?_, rfl, rfl⟩
  · intro h
    constructor <;> simp [replicateChildrenIdbCatch, replicateLexemeIdbCatch, h]
  · intro h
    constructor <;> simp [replicateChildrenIdbCatch, replicateLexemeIdbCatch, h]

theorem C7_transient_abort_retry_witness :
    isAbortError ⟨"AbortError", "sync aborted"⟩ = true ∧
    replicateChildrenIdbCatch "k1" ⟨"AbortError", "sync aborted"⟩ =
      .scheduleRetry IDB_ERROR_RETRY ∧
    replicateLexemeIdbCatch "lex1" ⟨"AbortError", "sync aborted"⟩ =
      .scheduleRetry IDB_ERROR_RETRY := by
  refine ⟨by decide, ?_⟩
  exact (C7_transient_abort_retry "k1" "lex1" ⟨"AbortError", "sync aborted"⟩).1 (by decide)

/-- C10: for every key equal to one of the special context tokens, the
synchronous phase of replicateLexeme returns undefined immediately (the
specialToken marker) without creating any document or provider (no events) and
without modifying any cache or the retained set (the state is unchanged). -/
theorem C10_replicateLexeme_special_tokens (testMode : Bool) (tsid key : String)
    (background : Bool) (s : TSState)
    (h : key = HOME_TOKEN ∨ key = EM_TOKEN ∨ key = ABSOLUTE_TOKEN) :
    replicateLexemeSync testMode tsid key background s = (s, [], .specialToken) := by
  unfold replicateLexemeSync
  rw [if_pos h]

theorem C10_replicateLexeme_special_tokens_witness :
    replicateLexemeSync false "ts1" HOME_TOKEN true {} =
      ({}, [], LexPhase.specialToken) :=
  C10_replicateLexeme_special_tokens false "ts1" HOME_TOKEN true {} (Or.inl rfl)

/-! ## Lemmas about the synchronous replication phases -/

theorem replicateChildrenSync_cached {docKey : String} {s : TSState} (tsid : String)
    {d : YDocT} (h : mapGet s.thoughtDocs docKey = some d) :
    replicateChildrenSync false tsid docKey {} s =
      ({ s with thoughtRetained := setAdd s.thoughtRetained docKey }, [], false) := by
  unfold replicateChildrenSync
  rw [h]
  rfl

theorem replicateChildrenSync_fresh {docKey : String} {s : TSState} (tsid : String)
    (h : mapGet s.thoughtDocs docKey = none) :
    replicateChildrenSync false tsid docKey {} s =
      ({ s with
          thoughtRetained := setAdd s.thoughtRetained docKey,
          thoughtDocs := mapSet s.thoughtDocs docKey
            { guid := encodeThoughtDocumentName tsid docKey },
          thoughtIDBSynced := setAdd s.thoughtIDBSynced docKey,
          thoughtPersistence := setAdd s.thoughtPersistence docKey,
          thoughtWebsocketProvider := setAdd s.thoughtWebsocketProvider docKey,
          thoughtWebsocketSynced := setAdd s.thoughtWebsocketSynced docKey },
        [REvent.createDoc (encodeThoughtDocumentName tsid docKey),
          REvent.createPersistence (encodeThoughtDocumentName tsid docKey),
          REvent.createWebsocketProvider (encodeThoughtDocumentName tsid docKey)],
        true) := by
  unfold replicateChildrenSync
  rw [h]
  rfl

theorem replicateLexemeSync_cached {key : String} {s : TSState} (tsid : String)
    {d : LexemeMap} (hk : ¬(key = HOME_TOKEN ∨ key = EM_TOKEN ∨ key = ABSOLUTE_TOKEN))
    (h : mapGet s.lexemeDocs key = some d) :
    replicateLexemeSync false tsid key false s =
      ({ s with lexemeRetained := setAdd s.lexemeRetained key }, [], .cachedWait) := by
  unfold replicateLexemeSync
  rw [if_neg hk, h]
  rfl

theorem replicateLexemeSync_fresh {key : String} {s : TSState} (tsid : String)
    (hk : ¬(key = HOME_TOKEN ∨ key = EM_TOKEN ∨ key = ABSOLUTE_TOKEN))
    (h : mapGet s.lexemeDocs key = none) :
    replicateLexemeSync false tsid key false s =
      ({ s with
          lexemeRetained := setAdd s.lexemeRetained key,
          lexemeDocs := mapSet s.lexemeDocs key [],
          lexemeIDBSynced := setAdd s.lexemeIDBSynced key,
          lexemePersistence := setAdd s.lexemePersistence key,
          lexemeWebsocketSynced := setAdd s.lexemeWebsocketSynced key,
          lexemeWebsocketProvider := setAdd s.lexemeWebsocketProvider key },
        [REvent.createDoc (encodeLexemeDocumentName tsid key),
          REvent.createPersistence (encodeLexemeDocumentName tsid key),
          REvent.createWebsocketProvider (encodeLexemeDocumentName tsid key)],
        .created) := by
  unfold replicateLexemeSync
  rw [if_neg hk, h]
  rfl

theorem runReplicateChildren_cached (tsid docKey : String) (n : Nat) :
    ∀ s : TSState, (mapGet s.thoughtDocs docKey).isSome = true →
      (runReplicateChildren false tsid docKey {} n s).2 = [] ∧
      mapGet (runReplicateChildren false tsid docKey {} n s).1.thoughtDocs docKey =
        mapGet s.thoughtDocs docKey := by
  induction n with
  | zero => intro s _; exact ⟨rfl, rfl⟩
  | succ n ih =>
    intro s h
    obtain ⟨d, hd⟩ := Option.isSome_iff_exists.mp h
    have hstep := replicateChildrenSync_cached tsid hd
    have hrest := ih { s with thoughtRetained := setAdd s.thoughtRetained docKey } h
    simp only [runReplicateChildren, hstep] at *
    exact ⟨hrest.1, hrest.2⟩

theorem runReplicateLexeme_cached (tsid key : String)
    (hk : ¬(key = HOME_TOKEN ∨ key = EM_TOKEN ∨ key = ABSOLUTE_TOKEN)) (n : Nat) :
    ∀ s : TSState, (mapGet s.lexemeDocs key).isSome = true →
      (runReplicateLexeme false tsid key false n s).2 = [] ∧
      mapGet (runReplicateLexeme false tsid key false n s).1.lexemeDocs key =
        mapGet s.lexemeDocs key := by
  induction n with
  | zero => intro s _; exact ⟨rfl, rfl⟩
  | succ n ih =>
    intro s h
    obtain ⟨d, hd⟩ := Option.isSome_iff_exists.mp h
    have hstep := replicateLexemeSync_cached tsid hk hd
    have hrest := ih { s with lexemeRetained := setAdd s.lexemeRetained key } h
    simp only [runReplicateLexeme, hstep] at *
    exact ⟨hrest.1, hrest.2⟩

/-- C1: N concurrent replicateChildren(k) (resp. replicateLexeme(k)) calls for
an unresident key create exactly one Y.Doc / persistence-provider /
websocket-provider triple: the first caller's synchronous phase emits exactly
one creation event for each and caches the doc and both sync promises before
any suspension point, so all n later callers emit no creation events at all,
and the doc remains cached afterwards. -/
theorem C1_concurrent_replicate_dedup (tsid docKey key : String) (n : Nat) (s : TSState)
    (hT : mapGet s.thoughtDocs docKey = none)
    (hL : mapGet s.lexemeDocs key = none)
    (hk : ¬(key = HOME_TOKEN ∨ key = EM_TOKEN ∨ key = ABSOLUTE_TOKEN)) :
    ((runReplicateChildren false tsid docKey {} (n + 1) s).2 =
        [REvent.createDoc (encodeThoughtDocumentName tsid docKey),
          REvent.createPersistence (encodeThoughtDocumentName tsid docKey),
          REvent.createWebsocketProvider (encodeThoughtDocumentName tsid docKey)] ∧
      (mapGet (runReplicateChildren false tsid docKey {} (n + 1) s).1.thoughtDocs
        docKey).isSome = true) ∧
    ((runReplicateLexeme false tsid key false (n + 1) s).2 =
        [REvent.createDoc (encodeLexemeDocumentName tsid key),
          REvent.createPersistence (encodeLexemeDocumentName tsid key),
          REvent.createWebsocketProvider (encodeLexemeDocumentName tsid key)] ∧
      (mapGet (runReplicateLexeme false tsid key false (n + 1) s).1.lexemeDocs
        key).isSome = true) := by
  constructor
  · have hstep := replicateChildrenSync_fresh tsid hT
    have hcached : (mapGet ({ s with
        thoughtRetained := setAdd s.thoughtRetained docKey,
        thoughtDocs := mapSet s.thoughtDocs docKey
          { guid := encodeThoughtDocumentName tsid docKey },
        thoughtIDBSynced := setAdd s.thoughtIDBSynced docKey,
        thoughtPersistence := setAdd s.thoughtPersistence docKey,
        thoughtWebsocketProvider := setAdd s.thoughtWebsocketProvider docKey,
        thoughtWebsocketSynced := setAdd s.thoughtWebsocketSynced docKey } :
          TSState).thoughtDocs docKey).isSome = true := by
      show (mapGet (mapSet s.thoughtDocs docKey
        { guid := encodeThoughtDocumentName tsid docKey }) docKey).isSome = true
      rw [mapGet_mapSet_self]; rfl
    have hrest := runReplicateChildren_cached tsid docKey n _ hcached
    simp only [runReplicateChildren, hstep] at *
    refine ⟨by rw [hrest.1]; rfl, ?_⟩
    rw [hrest.2]
    show (mapGet (mapSet s.thoughtDocs docKey
      { guid := encodeThoughtDocumentName tsid docKey }) docKey).isSome = true
    rw [mapGet_mapSet_self]
    rfl
  · have hstep := replicateLexemeSync_fresh tsid hk hL
    have hcached : (mapGet ({ s with
        lexemeRetained := setAdd s.lexemeRetained key,
        lexemeDocs := mapSet s.lexemeDocs key [],
        lexemeIDBSynced := setAdd s.lexemeIDBSynced key,
        lexemePersistence := setAdd s.lexemePersistence key,
        lexemeWebsocketSynced := setAdd s.lexemeWebsocketSynced key,
        lexemeWebsocketProvider := setAdd s.lexemeWebsocketProvider key } :
          TSState).lexemeDocs key).isSome = true := by
      show (mapGet (mapSet s.lexemeDocs key []) key).isSome = true
      rw [mapGet_mapSet_self]; rfl
    have hrest := runReplicateLexeme_cached tsid key hk n _ hcached
    simp only [runReplicateLexeme, hstep] at *
    refine ⟨by rw [hrest.1]; rfl, ?_⟩
    rw [hrest.2]
    show (mapGet (mapSet s.lexemeDocs key []) key).isSome = true
    rw [mapGet_mapSet_self]
    rfl

theorem C1_concurrent_replicate_dedup_witness :
    mapGet ({} : TSState).thoughtDocs "k1" = none ∧
    (runReplicateChildren false "ts1" "k1" {} 2 {}).2 =
      [REvent.createDoc (encodeThoughtDocumentName "ts1" "k1"),
        REvent.createPersistence (encodeThoughtDocumentName "ts1" "k1"),
        REvent.createWebsocketProvider (encodeThoughtDocumentName "ts1" "k1")] := by
  refine ⟨rfl, ?_⟩
  exact (C1_concurrent_replicate_dedup "ts1" "k1" "lex1" 1 {} rfl rfl (by decide)).1.1

theorem tryDeallocateThought_retained {docKey : String} {s : TSState}
    (h : setMem s.thoughtRetained docKey = true) :
    tryDeallocateThought docKey s = s := by
  unfold tryDeallocateThought
  rw [if_pos h]

theorem tryDeallocateLexeme_retained {key : String} {s : TSState}
    (h : setMem s.lexemeRetained key = true) :
    tryDeallocateLexeme key s = s := by
  unfold tryDeallocateLexeme
  rw [if_pos h]

/-- C2: if freeThought(k) (resp. freeLexeme(k)) is initiated and k is
re-retained by a foreground replication while freeThought awaits IDB sync,
then the deallocation step, which re-checks the retained set immediately
before any destructive action, is a no-op: the shard's document and providers
survive, and a subsequent read of k takes the cached branch, creating nothing
and observing the original document. -/
theorem C2_retention_safety (tsid docKey key : String) (s : TSState)
    (hT : (mapGet s.thoughtDocs docKey).isSome = true)
    (hL : (mapGet s.lexemeDocs key).isSome = true)
    (hk : ¬(key = HOME_TOKEN ∨ key = EM_TOKEN ∨ key = ABSOLUTE_TOKEN)) :
    (tryDeallocateThought docKey (freeThoughtRace tsid docKey s) =
        freeThoughtRace tsid docKey s ∧
      mapGet (freeThoughtRace tsid docKey s).thoughtDocs docKey =
        mapGet s.thoughtDocs docKey ∧
      (replicateChildrenSync false tsid docKey {}
        (tryDeallocateThought docKey (freeThoughtRace tsid docKey s))).2 = ([], false)) ∧
    (tryDeallocateLexeme key (freeLexemeRace tsid key s) = freeLexemeRace tsid key s ∧
      mapGet (freeLexemeRace tsid key s).lexemeDocs key = mapGet s.lexemeDocs key ∧
      (replicateLexemeSync false tsid key false
        (tryDeallocateLexeme key (freeLexemeRace tsid key s))).2 = ([], .cachedWait)) := by
  obtain ⟨d, hd⟩ := Option.isSome_iff_exists.mp hT
  obtain ⟨l, hl⟩ := Option.isSome_iff_exists.mp hL
  constructor
  · have hd1 : mapGet (freeThoughtPhase1 docKey s).thoughtDocs docKey = some d := hd
    have hR : freeThoughtRace tsid docKey s =
        { freeThoughtPhase1 docKey s with
            thoughtRetained := setAdd (freeThoughtPhase1 docKey s).thoughtRetained docKey } := by
      unfold freeThoughtRace
      rw [replicateChildrenSync_cached tsid hd1]
    have hret : setMem (freeThoughtRace tsid docKey s).thoughtRetained docKey = true := by
      rw [hR]
      exact setMem_setAdd_self _ _
    have hnoop := tryDeallocateThought_retained hret
    have hdocs : mapGet (freeThoughtRace tsid docKey s).thoughtDocs docKey = some d := by
      rw [hR]; exact hd
    refine ⟨hnoop, ?_, ?_⟩
    · rw [hdocs, hd]
    · rw [hnoop, replicateChildrenSync_cached tsid hdocs]
  · have hl1 : mapGet (freeLexemePhase1 key s).lexemeDocs key = some l := hl
    have hR : freeLexemeRace tsid key s =
        { freeLexemePhase1 key s with
            lexemeRetained := setAdd (freeLexemePhase1 key s).lexemeRetained key } := by
      unfold freeLexemeRace
      rw [replicateLexemeSync_cached tsid hk hl1]
    have hret : setMem (freeLexemeRace tsid key s).lexemeRetained key = true := by
      rw [hR]
      exact setMem_setAdd_self _ _
    have hnoop := tryDeallocateLexeme_retained hret
    have hdocs : mapGet (freeLexemeRace tsid key s).lexemeDocs key = some l := by
      rw [hR]; exact hl
    refine ⟨hnoop, ?_, ?_⟩
    · rw [hdocs, hl]
    · rw [hnoop, replicateLexemeSync_cached tsid hk hdocs]

theorem C2_retention_safety_witness :
    (mapGet (TSState.mk [("k1", ⟨"g1", []⟩)] [] [] [] [] [] [("lex1", [])] [] [] [] [] [] []).thoughtDocs
      "k1").isSome = true ∧
    tryDeallocateThought "k1"
        (freeThoughtRace "ts1" "k1"
          (TSState.mk [("k1", ⟨"g1", []⟩)] [] [] [] [] [] [("lex1", [])] [] [] [] [] [] [])) =
      freeThoughtRace "ts1" "k1"
        (TSState.mk [("k1", ⟨"g1", []⟩)] [] [] [] [] [] [("lex1", [])] [] [] [] [] [] []) := by
  refine ⟨rfl, ?_⟩
  exact ((C2_retention_safety "ts1" "k1" "lex1"
    (TSState.mk [("k1", ⟨"g1", []⟩)] [] [] [] [] [] [("lex1", [])] [] [] [] [] [] [])
    rfl rfl (by decide)).1).1

/-! ## Error propagation of a missing docKey -/

theorem isErr_exceptMap {ε α β : Type} (g : α → β) (x : Except ε α) :
    isErr (x.map g) = isErr x := by
  cases x <;> rfl

theorem addCxLoop_isErr (docKeys : List (String × String)) (old : List String) :
    ∀ (cs : List String) (m : LexemeMap) (c : String), c ∈ cs → setMem old c = false →
      mapGet docKeys c = none → isErr (addCxLoop docKeys old cs m) = true := by
  intro cs
  induction cs with
  | nil => intro m c hc _ _; simp at hc
  | cons c' rest ih =>
    intro m c hc hold hdk
    unfold addCxLoop
    by_cases hskip : setMem old c' = true
    · rw [if_pos hskip]
      rcases List.mem_cons.mp hc with hceq | hcmem
      · subst hceq; rw [hold] at hskip; exact absurd hskip (by simp)
      · exact ih _ c hcmem hold hdk
    · rw [if_neg hskip]
      cases hmg : mapGet docKeys c' with
      | none => rfl
      | some dk =>
        rcases List.mem_cons.mp hc with hceq | hcmem
        · subst hceq; rw [hdk] at hmg; exact absurd hmg (by simp)
        · exact ih _ c hcmem hold hdk

/-- C5: a thought id with no entry in the Document Key Index makes
replicateThought reject with a missing-docKey error rather than silently
returning empty state; likewise the updateLexeme transact throws when a newly
added context id has no cached docKey. -/
theorem C5_missing_docKey_fails_loudly (id : String) (docKeys : List (String × String))
    (lexemeOld : Option Lexeme) (lexemeNew : Lexeme) (m : LexemeMap) (c : String)
    (h1 : mapGet docKeys id = none)
    (hc : c ∈ lexemeNew.contexts)
    (hold : setMem ((lexemeOld.map (fun l => l.contexts)).getD []) c = false)
    (hdk : mapGet docKeys c = none) :
    replicateThoughtDocKeyCheck id docKeys =
      .error ("replicateThought: Missing docKey for thought " ++ id) ∧
    isErr (updateLexemeTransact docKeys lexemeOld lexemeNew m) = true := by
  constructor
  · unfold replicateThoughtDocKeyCheck
    rw [h1]
  · unfold updateLexemeTransact updateLexemeContexts
    rw [isErr_exceptMap, isErr_exceptMap]
    exact addCxLoop_isErr docKeys _ lexemeNew.contexts m c hc hold hdk

theorem C5_missing_docKey_fails_loudly_witness :
    mapGet ([] : List (String × String)) "t1" = none ∧
    replicateThoughtDocKeyCheck "t1" [] =
      .error ("replicateThought: Missing docKey for thought " ++ "t1") ∧
    isErr (updateLexemeTransact [] none ⟨["x1"], 1, 1, "user1"⟩ []) = true := by
  have h := C5_missing_docKey_fails_loudly "t1" [] none ⟨["x1"], 1, 1, "user1"⟩ [] "x1"
    rfl (by simp) rfl rfl
  exact ⟨rfl, h.1, h.2⟩

/-! ## Creation order: local durability versus remote provider creation -/

/-- C4 (counterexample): the claim is false as stated. For a concrete fresh
thought shard, the websocket provider creation event occurs strictly before the
IndexedDB sync completion event in the replication trace: replicateChildren
constructs the HocuspocusProvider synchronously (line 848) and only then
suspends on `await idbSynced` (line 899). -/
theorem C4_local_before_remote_counterexample :
    ¬ wsCreatedAfterIdbSynced (replicateChildrenRunEvents "ts1" "k1" {} {})
        (encodeThoughtDocumentName "ts1" "k1") := by
  unfold wsCreatedAfterIdbSynced
  decide

/-- C4 (amended): local-cache-before-remote ordering holds for the doclog
document and its blocks, whose websocket providers are created only inside
`persistence.whenSynced.then`; but for thought and lexeme shard documents the
websocket provider is created synchronously during replication setup, before
the IndexedDB persistence reports synced. -/
theorem C4_local_before_remote_amended (guid tsid docKey key : String) (s : TSState)
    (hT : mapGet s.thoughtDocs docKey = none)
    (hL : mapGet s.lexemeDocs key = none)
    (hk : ¬(key = HOME_TOKEN ∨ key = EM_TOKEN ∨ key = ABSOLUTE_TOKEN)) :
    wsCreatedAfterIdbSynced (doclogBlockLoadEvents guid) guid ∧
    wsCreatedAfterIdbSynced (doclogLoadEvents guid) guid ∧
    ¬ wsCreatedAfterIdbSynced (replicateChildrenRunEvents tsid docKey {} s)
        (encodeThoughtDocumentName tsid docKey) ∧
    ¬ wsCreatedAfterIdbSynced (replicateLexemeRunEvents tsid key false s)
        (encodeLexemeDocumentName tsid key) := by
  refine ⟨?_, ?_, ?_, ?_⟩
  · simp [wsCreatedAfterIdbSynced, doclogBlockLoadEvents, idxOfAux]
  · simp [wsCreatedAfterIdbSynced, doclogLoadEvents, idxOfAux]
  · have hstep := replicateChildrenSync_fresh tsid hT
    unfold replicateChildrenRunEvents
    rw [hstep]
    simp [wsCreatedAfterIdbSynced, idxOfAux]
  · have hstep := replicateLexemeSync_fresh tsid hk hL
    unfold replicateLexemeRunEvents
    rw [hstep]
    simp [wsCreatedAfterIdbSynced, idxOfAux]

theorem C4_local_before_remote_amended_witness :
    wsCreatedAfterIdbSynced (doclogBlockLoadEvents "g1") "g1" ∧
    ¬ wsCreatedAfterIdbSynced (replicateLexemeRunEvents "ts1" "lex1" false {})
        (encodeLexemeDocumentName "ts1" "lex1") := by
  have h := C4_local_before_remote_amended "g1" "ts1" "k1" "lex1" {} rfl rfl (by decide)
  exact ⟨h.1, h.2.2.2⟩

/-! ## Batcher lemmas -/

theorem throttleWindowsAux_nil {α : Type} (w fuel : Nat) :
    throttleWindowsAux w fuel ([] : List (Nat × α)) = [] := by
  cases fuel <;> rfl

theorem takeWhile_all {α : Type} (p : α → Bool) (l : List α) (h : ∀ x ∈ l, p x = true) :
    l.takeWhile p = l := by
  induction l with
  | nil => rfl
  | cons x rest ih =>
    have hx := h x (List.mem_cons_self x rest)
    simp [List.takeWhile_cons, hx, ih (fun y hy => h y (List.mem_cons_of_mem x hy))]

theorem dropWhile_all {α : Type} (p : α → Bool) (l : List α) (h : ∀ x ∈ l, p x = true) :
    l.dropWhile p = [] := by
  induction l with
  | nil => rfl
  | cons x rest ih =>
    have hx := h x (List.mem_cons_self x rest)
    simp [List.dropWhile_cons, hx, ih (fun y hy => h y (List.mem_cons_of_mem x hy))]

theorem throttleWindows_single {α : Type} (w t₀ : Nat) (a : α) (rest : List (Nat × α))
    (h : ∀ p ∈ rest, p.1 < t₀ + w) :
    throttleWindows w ((t₀, a) :: rest) = [a :: rest.map Prod.snd] := by
  show throttleWindowsAux w (rest.length + 1) ((t₀, a) :: rest) = _
  unfold throttleWindowsAux
  rw [takeWhile_all _ _ (fun p hp => decide_eq_true (h p hp)),
    dropWhile_all _ _ (fun p hp => decide_eq_true (h p hp)), throttleWindowsAux_nil]

theorem mapGet_mapSet {V : Type} (m : List (String × V)) (k k' : String) (v : V) :
    mapGet (mapSet m k v) k' = if k = k' then some v else mapGet m k' := by
  by_cases h : k = k'
  · subst h; simp [mapGet_mapSet_self]
  · simp [h, mapGet_mapSet_ne m v (fun hh => h hh.symm)]

theorem mapGet_overrideMerge {V : Type} (ys : List (String × V)) :
    ∀ (xs : List (String × V)) (k : String),
      mapGet (overrideMerge xs ys) k =
        match lastAssoc ys k with
        | some v => some v
        | none => mapGet xs k := by
  induction ys with
  | nil => intro xs k; rfl
  | cons kv ys' ih =>
    intro xs k
    obtain ⟨k₁, v₁⟩ := kv
    show mapGet (overrideMerge (mapSet xs k₁ v₁) ys') k = _
    rw [ih]
    cases hL : lastAssoc ys' k with
    | some v => simp [lastAssoc, hL]
    | none =>
      by_cases hk : k₁ = k <;> simp [lastAssoc, hL, mapGet_mapSet, hk]

theorem mapGet_foldl_override {V : Type} (xss : List (List (String × V))) :
    ∀ (e : List (String × V)) (k : String),
      mapGet (xss.foldl overrideMerge e) k =
        match lastAssocs xss k with
        | some v => some v
        | none => mapGet e k := by
  induction xss with
  | nil => intro e k; rfl
  | cons l rest ih =>
    intro e k
    show mapGet (rest.foldl overrideMerge (overrideMerge e l)) k = _
    rw [ih]
    cases hR : lastAssocs rest k with
    | some v => simp [lastAssocs, hR]
    | none =>
      rw [mapGet_overrideMerge]
      cases hL : lastAssoc l k <;> simp [lastAssocs, hR, hL]

theorem foldl_mergeBatch_thought (bs : List PushBatch) :
    ∀ e : PushBatch,
      (bs.foldl mergeBatch e).thoughtIndexUpdates =
        (bs.map (fun b => b.thoughtIndexUpdates)).foldl overrideMerge e.thoughtIndexUpdates := by
  induction bs with
  | nil => intro e; rfl
  | cons b rest ih => intro e; exact ih (mergeBatch e b)

theorem foldl_mergeBatch_lexeme (bs : List PushBatch) :
    ∀ e : PushBatch,
      (bs.foldl mergeBatch e).lexemeIndexUpdates =
        (bs.map (fun b => b.lexemeIndexUpdates)).foldl overrideMerge e.lexemeIndexUpdates := by
  induction bs with
  | nil => intro e; rfl
  | cons b rest ih => intro e; exact ih (mergeBatch e b)

/-- C8: all change-notification batches submitted within one throttle window
(UPDATE_THOUGHTS_THROTTLE) produce exactly one merged delivery, dispatched on a
later scheduler tick (never inline); and in the merged batch the value at every
key is the last value submitted for that key within the window, so later values
override earlier ones and explicit null deletion markers survive as such. -/
theorem C8_batcher_coalescing (t₀ : Nat) (b₀ : PushBatch) (rest : List (Nat × PushBatch))
    (hwin : ∀ p ∈ rest, p.1 < t₀ + UPDATE_THOUGHTS_THROTTLE) :
    throttleConcatDeliveries UPDATE_THOUGHTS_THROTTLE ((t₀, b₀) :: rest) =
      [Dispatch.nextTick ((b₀ :: rest.map Prod.snd).foldl mergeBatch emptyPushBatch)] ∧
    (∀ k,
      mapGet ((b₀ :: rest.map Prod.snd).foldl mergeBatch emptyPushBatch).thoughtIndexUpdates k =
        lastAssocs ((b₀ :: rest.map Prod.snd).map (fun b => b.thoughtIndexUpdates)) k) ∧
    (∀ k,
      mapGet ((b₀ :: rest.map Prod.snd).foldl mergeBatch emptyPushBatch).lexemeIndexUpdates k =
        lastAssocs ((b₀ :: rest.map Prod.snd).map (fun b => b.lexemeIndexUpdates)) k) := by
  refine ⟨?_, ?_, ?_⟩
  · unfold throttleConcatDeliveries
    rw [throttleWindows_single _ _ _ _ hwin]
    rfl
  · intro k
    rw [foldl_mergeBatch_thought, mapGet_foldl_override]
    cases hL : lastAssocs ((b₀ :: rest.map Prod.snd).map (fun b => b.thoughtIndexUpdates)) k <;>
      simp [hL, emptyPushBatch, mapGet]
  · intro k
    rw [foldl_mergeBatch_lexeme, mapGet_foldl_override]
    cases hL : lastAssocs ((b₀ :: rest.map Prod.snd).map (fun b => b.lexemeIndexUpdates)) k <;>
      simp [hL, emptyPushBatch, mapGet]

theorem C8_batcher_coalescing_witness :
    throttleConcatDeliveries UPDATE_THOUGHTS_THROTTLE
        [(0, ⟨[("k1", some ⟨"t1", "p1", 0, "v1", 0, 0, "u1", none, []⟩)], [], []⟩),
          (10, ⟨[("k1", none)], [], []⟩),
          (20, ⟨[("k1", some ⟨"t1", "p1", 0, "v2", 1, 1, "u1", none, []⟩)], [], []⟩)] =
      [Dispatch.nextTick
        ((⟨[("k1", some ⟨"t1", "p1", 0, "v1", 0, 0, "u1", none, []⟩)], [], []⟩ ::
            ([((10 : Nat), (⟨[("k1", none)], [], []⟩ : PushBatch)),
              (20, ⟨[("k1", some ⟨"t1", "p1", 0, "v2", 1, 1, "u1", none, []⟩)], [], []⟩)].map
              Prod.snd)).foldl
          mergeBatch emptyPushBatch)] := by
  exact (C8_batcher_coalescing 0
    ⟨[("k1", some ⟨"t1", "p1", 0, "v1", 0, 0, "u1", none, []⟩)], [], []⟩
    [(10, ⟨[("k1", none)], [], []⟩),
      (20, ⟨[("k1", some ⟨"t1", "p1", 0, "v2", 1, 1, "u1", none, []⟩)], [], []⟩)]
    (by decide)).1

/-! ## String lemmas for the cx- key codec -/

theorem isPre_append_self (xs ys : List Char) : isPre xs (xs ++ ys) = true := by
  induction xs with
  | nil => rfl
  | cons a as ih => simp [isPre, ih]

theorem splitFirst_append_self (sep ys : List Char) (hsep : sep ≠ []) :
    splitFirst sep (sep ++ ys) = some ([], ys) := by
  cases sep with
  | nil => exact absurd rfl hsep
  | cons c cs =>
    show splitFirst (c :: cs) (c :: (cs ++ ys)) = some ([], ys)
    unfold splitFirst
    have hp : isPre (c :: cs) (c :: (cs ++ ys)) = true := isPre_append_self (c :: cs) ys
    have hdrop : List.drop (c :: cs).length (c :: (cs ++ ys)) = ys := List.drop_left (c :: cs) ys
    rw [if_pos hp, hdrop]

theorem str_ext {a b : String} (h : a.data = b.data) : a = b :=
  congrArg String.mk h

theorem cxidOf_cx {c : String} (h : goodCxid c = true) : cxidOf ("cx-" ++ c) = some c := by
  unfold goodCxid at h
  rw [Bool.and_eq_true] at h
  obtain ⟨hne, hno⟩ := h
  have hnone : splitFirst ("cx-".data) c.data = none := by
    cases hsf : splitFirst ("cx-".data) c.data with
    | none => rfl
    | some p => rw [hsf] at hno; simp at hno
  have hne' : ¬c = "" := by
    intro he
    rw [he] at hne
    simp at hne
  have hsplit : splitCx ("cx-" ++ c) = some c := by
    unfold splitCx jsSplitSecond
    rw [String.data_append, splitFirst_append_self _ _ (by decide)]
    show Option.map (fun cs => String.mk cs)
      (match splitFirst ("cx-".data) c.data with
      | none => some c.data
      | some (a, _) => some a) = some c
    rw [hnone]
    rfl
  unfold cxidOf
  rw [hsplit]
  simp [hne']

theorem cx_ne_of_cxidOf_none {c t : String} (hc : goodCxid c = true)
    (ht : cxidOf t = none) : "cx-" ++ c ≠ t := by
  intro he
  rw [← he, cxidOf_cx hc] at ht
  simp at ht

theorem cx_append_inj {a b : String} (h : "cx-" ++ a = "cx-" ++ b) : a = b := by
  have hd := congrArg String.data h
  rw [String.data_append, String.data_append] at hd
  exact str_ext (List.append_cancel_left hd)

/-! ## Lemmas about the lexeme map codec -/

theorem mapGet_none_of_all_ne {V : Type} {m : List (String × V)} {k : String}
    (h : ∀ kv ∈ m, kv.1 ≠ k) : mapGet m k = none := by
  induction m with
  | nil => rfl
  | cons kv rest ih =>
    obtain ⟨k₁, v₁⟩ := kv
    have h₁ : k₁ ≠ k := h (k₁, v₁) (List.mem_cons_self _ _)
    have htail := ih (fun kv hk => h kv (List.mem_cons_of_mem _ hk))
    simp [mapGet, h₁, htail]

theorem mapSet_ne_nil {V : Type} (m : List (String × V)) (k : String) (v : V) :
    mapSet m k v ≠ [] := by
  cases m with
  | nil => simp [mapSet]
  | cons kv rest =>
    obtain ⟨k₁, v₁⟩ := kv
    by_cases h : k₁ = k <;> simp [mapSet, h]

theorem filterMapCx_cons_some (kv : String × YVal) {m : LexemeMap} {c : String}
    (h : cxidOf kv.1 = some c) : filterMapCx (kv :: m) = c :: filterMapCx m := by
  unfold filterMapCx
  rw [List.filterMap_cons, h]

theorem filterMapCx_cons_none (kv : String × YVal) {m : LexemeMap}
    (h : cxidOf kv.1 = none) : filterMapCx (kv :: m) = filterMapCx m := by
  unfold filterMapCx
  rw [List.filterMap_cons, h]

theorem filterMapCx_mapSet_none {m : LexemeMap} {k : String} {v : YVal}
    (h : cxidOf k = none) : filterMapCx (mapSet m k v) = filterMapCx m := by
  induction m with
  | nil =>
    show filterMapCx [(k, v)] = filterMapCx []
    rw [filterMapCx_cons_none (k, v) h]
  | cons kv rest ih =>
    obtain ⟨k₁, v₁⟩ := kv
    by_cases h₁ : k₁ = k
    · subst h₁
      have hm : mapSet ((k₁, v₁) :: rest) k₁ v = (k₁, v) :: mapSet rest k₁ v := by
        simp [mapSet]
      rw [hm, filterMapCx_cons_none (k₁, v) h, filterMapCx_cons_none (k₁, v₁) h, ih]
    · have hm : mapSet ((k₁, v₁) :: rest) k v = (k₁, v₁) :: mapSet rest k v := by
        simp [mapSet, h₁]
      rw [hm]
      cases hcx : cxidOf k₁ with
      | none => rw [filterMapCx_cons_none (k₁, v₁) hcx, filterMapCx_cons_none (k₁, v₁) hcx, ih]
      | some c => rw [filterMapCx_cons_some (k₁, v₁) hcx, filterMapCx_cons_some (k₁, v₁) hcx, ih]

theorem mem_filterMapCx_mapSet {m : LexemeMap} {k : String} {v : YVal} {x : String} :
    x ∈ filterMapCx (mapSet m k v) ↔ x ∈ filterMapCx m ∨ cxidOf k = some x := by
  induction m with
  | nil =>
    show x ∈ filterMapCx [(k, v)] ↔ x ∈ filterMapCx [] ∨ cxidOf k = some x
    cases hcx : cxidOf k with
    | none => rw [filterMapCx_cons_none (k, v) hcx]; simp [filterMapCx]
    | some c =>
      rw [filterMapCx_cons_some (k, v) hcx]
      simp [filterMapCx, eq_comm]
  | cons kv rest ih =>
    obtain ⟨k₁, v₁⟩ := kv
    by_cases h₁ : k₁ = k
    · subst h₁
      have hm : mapSet ((k₁, v₁) :: rest) k₁ v = (k₁, v) :: mapSet rest k₁ v := by
        simp [mapSet]
      rw [hm]
      cases hcx : cxidOf k₁ with
      | none =>
        rw [filterMapCx_cons_none (k₁, v) hcx, filterMapCx_cons_none (k₁, v₁) hcx]
        simp [ih, hcx]
      | some c =>
        rw [filterMapCx_cons_some (k₁, v) hcx, filterMapCx_cons_some (k₁, v₁) hcx]
        simp [List.mem_cons, ih, hcx, or_assoc]
    · have hm : mapSet ((k₁, v₁) :: rest) k v = (k₁, v₁) :: mapSet rest k v := by
        simp [mapSet, h₁]
      rw [hm]
      cases hcx : cxidOf k₁ with
      | none =>
        rw [filterMapCx_cons_none (k₁, v₁) hcx, filterMapCx_cons_none (k₁, v₁) hcx]
        exact ih
      | some c =>
        rw [filterMapCx_cons_some (k₁, v₁) hcx, filterMapCx_cons_some (k₁, v₁) hcx]
        simp [List.mem_cons, ih, or_assoc]

theorem mem_updateLexemeScalar {m : LexemeMap} {jk dk : String} {v : YVal} {kv : String × YVal}
    (h : kv ∈ updateLexemeScalar m jk dk v) : kv ∈ m ∨ kv.1 = dk := by
  unfold updateLexemeScalar at h
  by_cases hc : some v ≠ mapGet m jk
  · rw [if_pos hc] at h
    rcases mem_mapSet h with h' | h'
    · exact Or.inl h'
    · right; rw [h']
  · rw [if_neg hc] at h
    exact Or.inl h

theorem mapGet_updateLexemeScalar_ne {m : LexemeMap} {jk dk k : String} {v : YVal}
    (h : k ≠ dk) : mapGet (updateLexemeScalar m jk dk v) k = mapGet m k := by
  unfold updateLexemeScalar
  by_cases hc : some v ≠ mapGet m jk
  · rw [if_pos hc, mapGet_mapSet_ne _ _ h]
  · rw [if_neg hc]

theorem filterMapCx_updateLexemeScalar {m : LexemeMap} {jk dk : String} {v : YVal}
    (h : cxidOf dk = none) :
    filterMapCx (updateLexemeScalar m jk dk v) = filterMapCx m := by
  unfold updateLexemeScalar
  by_cases hc : some v ≠ mapGet m jk
  · rw [if_pos hc]; exact filterMapCx_mapSet_none h
  · rw [if_neg hc]

theorem mem_addCxFold (docKeys : List (String × String)) :
    ∀ (cs : List String) (m : LexemeMap) (kv : String × YVal),
      kv ∈ addCxFold docKeys cs m →
      kv ∈ m ∨ ∃ c ∈ cs, kv = ("cx-" ++ c, YVal.str ((mapGet docKeys c).getD "")) := by
  intro cs
  induction cs with
  | nil => intro m kv h; exact Or.inl h
  | cons c rest ih =>
    intro m kv h
    have h' := ih (mapSet m ("cx-" ++ c) (.str ((mapGet docKeys c).getD ""))) kv h
    rcases h' with h' | ⟨c', hc', he⟩
    · rcases mem_mapSet h' with h'' | h''
      · exact Or.inl h''
      · exact Or.inr ⟨c, List.mem_cons_self _ _, h''⟩
    · exact Or.inr ⟨c', List.mem_cons_of_mem _ hc', he⟩

theorem mapGet_addCxFold (docKeys : List (String × String)) :
    ∀ (cs : List String) (m : LexemeMap) (c : String), goodCxid c = true →
      (∀ c' ∈ cs, goodCxid c' = true) →
      mapGet (addCxFold docKeys cs m) ("cx-" ++ c) =
        if c ∈ cs then some (.str ((mapGet docKeys c).getD "")) else mapGet m ("cx-" ++ c) := by
  intro cs
  induction cs with
  | nil => intro m c _ _; simp [addCxFold]
  | cons c' rest ih =>
    intro m c hc hall
    have hrest : ∀ x ∈ rest, goodCxid x = true := fun x hx => hall x (List.mem_cons_of_mem _ hx)
    have hstep := ih (mapSet m ("cx-" ++ c') (.str ((mapGet docKeys c').getD ""))) c hc hrest
    show mapGet (addCxFold docKeys rest
      (mapSet m ("cx-" ++ c') (.str ((mapGet docKeys c').getD "")))) ("cx-" ++ c) = _
    rw [hstep]
    by_cases hmem : c ∈ rest
    · simp [hmem]
    · by_cases hcc : c' = c
      · subst hcc
        simp [hmem, mapGet_mapSet_self]
      · have hcc' : ¬c = c' := fun hh => hcc hh.symm
        have hne : "cx-" ++ c ≠ "cx-" ++ c' := fun hh => hcc (cx_append_inj hh).symm
        simp [hmem, hcc', mapGet_mapSet_ne _ _ hne]

theorem mem_filterMapCx_addCxFold (docKeys : List (String × String)) :
    ∀ (cs : List String) (m : LexemeMap) (x : String), (∀ c ∈ cs, goodCxid c = true) →
      (x ∈ filterMapCx (addCxFold docKeys cs m) ↔ x ∈ cs ∨ x ∈ filterMapCx m) := by
  intro cs
  induction cs with
  | nil => intro m x _; simp [addCxFold]
  | cons c rest ih =>
    intro m x hall
    have hc := hall c (List.mem_cons_self _ _)
    have hrest : ∀ y ∈ rest, goodCxid y = true := fun y hy => hall y (List.mem_cons_of_mem _ hy)
    show x ∈ filterMapCx (addCxFold docKeys rest
      (mapSet m ("cx-" ++ c) (.str ((mapGet docKeys c).getD "")))) ↔ _
    rw [ih _ x hrest, mem_filterMapCx_mapSet, cxidOf_cx hc]
    simp only [Option.some.injEq, List.mem_cons]
    constructor
    · rintro (h | h | h)
      · exact Or.inl (Or.inr h)
      · exact Or.inr h
      · exact Or.inl (Or.inl h.symm)
    · rintro ((h | h) | h)
      · exact Or.inr (Or.inr h.symm)
      · exact Or.inl h
      · exact Or.inr (Or.inl h)

theorem addCxLoop_ok (docKeys : List (String × String)) :
    ∀ (cs : List String) (m : LexemeMap),
      (∀ c ∈ cs, (mapGet docKeys c).isSome = true) →
      addCxLoop docKeys [] cs m = .ok (addCxFold docKeys cs m) := by
  intro cs
  induction cs with
  | nil => intro m _; rfl
  | cons c rest ih =>
    intro m h
    have hc := h c (List.mem_cons_self _ _)
    cases hd : mapGet docKeys c with
    | none => rw [hd] at hc; simp at hc
    | some d =>
      have hrest : ∀ x ∈ rest, (mapGet docKeys x).isSome = true :=
        fun x hx => h x (List.mem_cons_of_mem _ hx)
      have hfold : addCxFold docKeys (c :: rest) m =
          addCxFold docKeys rest (mapSet m ("cx-" ++ c) (.str d)) := by
        show addCxFold docKeys rest
          (mapSet m ("cx-" ++ c) (.str ((mapGet docKeys c).getD ""))) = _
        rw [hd]
        rfl
      rw [hfold]
      unfold addCxLoop
      rw [if_neg (by simp [setMem]), hd]
      exact ih _ hrest

theorem updateLexemeTransact_fresh_ok (docKeys : List (String × String)) (lexemeNew : Lexeme)
    (h : ∀ c ∈ lexemeNew.contexts, (mapGet docKeys c).isSome = true) :
    updateLexemeTransact docKeys none lexemeNew [] =
      .ok (updateLexemeScalar (updateLexemeScalar (updateLexemeScalar
          (addCxFold docKeys lexemeNew.contexts [])
          "created" "c" (.num lexemeNew.created))
          "lastUpdated" "l" (.num lexemeNew.lastUpdated))
          "updatedBy" "u" (.str lexemeNew.updatedBy)) := by
  have hok := addCxLoop_ok docKeys lexemeNew.contexts [] h
  unfold updateLexemeTransact updateLexemeContexts
  have hold : ((none : Option Lexeme).map (fun l => l.contexts)).getD [] = [] := rfl
  rw [hold, hok]
  rfl

theorem setDocKeys_no_cx (m : LexemeMap) :
    ∀ (dk : List (String × String)) (c : String),
      (∀ kv ∈ m, cxidOf kv.1 ≠ some c) →
      mapGet (replicateLexemeSetDocKeys m dk) c = mapGet dk c := by
  induction m with
  | nil => intro dk c _; rfl
  | cons kv rest ih =>
    intro dk c h
    have hrest : ∀ kv' ∈ rest, cxidOf kv'.1 ≠ some c :=
      fun kv' hk => h kv' (List.mem_cons_of_mem _ hk)
    show mapGet (replicateLexemeSetDocKeys rest
      (match cxidOf kv.1 with
        | some cxid => mapSet dk cxid (strOfY kv.2)
        | none => dk)) c = mapGet dk c
    cases hcx : cxidOf kv.1 with
    | none => exact ih dk c hrest
    | some x =>
      show mapGet (replicateLexemeSetDocKeys rest (mapSet dk x (strOfY kv.2))) c = mapGet dk c
      have hxc : ¬c = x := fun hh => h kv (List.mem_cons_self _ _) (by rw [hcx, hh])
      rw [ih (mapSet dk x (strOfY kv.2)) c hrest, mapGet_mapSet_ne _ _ hxc]

theorem setDocKeys_get (m : LexemeMap) :
    ∀ (dk : List (String × String)) (c d : String),
      (∀ kv ∈ m, cxidOf kv.1 = some c → strOfY kv.2 = d) →
      (∃ kv ∈ m, cxidOf kv.1 = some c) →
      mapGet (replicateLexemeSetDocKeys m dk) c = some d := by
  induction m with
  | nil => intro dk c d _ hex; simp at hex
  | cons kv rest ih =>
    intro dk c d hall hex
    have hallr : ∀ kv' ∈ rest, cxidOf kv'.1 = some c → strOfY kv'.2 = d :=
      fun kv' hk => hall kv' (List.mem_cons_of_mem _ hk)
    show mapGet (replicateLexemeSetDocKeys rest
      (match cxidOf kv.1 with
        | some cxid => mapSet dk cxid (strOfY kv.2)
        | none => dk)) c = some d
    by_cases hhd : cxidOf kv.1 = some c
    · have hval := hall kv (List.mem_cons_self _ _) hhd
      rw [hhd]
      show mapGet (replicateLexemeSetDocKeys rest (mapSet dk c (strOfY kv.2))) c = some d
      by_cases hrest : ∃ kv' ∈ rest, cxidOf kv'.1 = some c
      · exact ih _ c d hallr hrest
      · have hnone : ∀ kv' ∈ rest, cxidOf kv'.1 ≠ some c := by
          intro kv' hk hcc
          exact hrest ⟨kv', hk, hcc⟩
        rw [setDocKeys_no_cx rest _ c hnone, mapGet_mapSet_self, hval]
    · have hex' : ∃ kv' ∈ rest, cxidOf kv'.1 = some c := by
        rcases hex with ⟨kv', hk, hcc⟩
        rcases List.mem_cons.mp hk with he | hmm
        · exact absurd (he ▸ hcc) hhd
        · exact ⟨kv', hmm, hcc⟩
      cases hcx : cxidOf kv.1 with
      | none => exact ih dk c d hallr hex'
      | some x => exact ih (mapSet dk x (strOfY kv.2)) c d hallr hex'

theorem updateLexemeScalar_of_get_ne {m : LexemeMap} {jk dk : String} {v : YVal}
    (h : some v ≠ mapGet m jk) : updateLexemeScalar m jk dk v = mapSet m dk v := by
  unfold updateLexemeScalar
  rw [if_pos h]

theorem alias_ne_contexts {k : String} (hk : k ≠ "x") :
    ((lexemeKeyFromDb k).getD "undefined") ≠ "contexts" := by
  unfold lexemeKeyFromDb
  by_cases h1 : k = "c"
  · rw [if_pos h1]; decide
  · rw [if_neg h1]
    by_cases h2 : k = "l"
    · rw [if_pos h2]; decide
    · rw [if_neg h2]
      by_cases h3 : k = "x"
      · exact absurd h3 hk
      · rw [if_neg h3]
        by_cases h4 : k = "u"
        · rw [if_pos h4]; decide
        · rw [if_neg h4]; decide

theorem lexContexts_foldl (m : LexemeMap) :
    ∀ acc : List (String × JsValue), (∀ kv ∈ m, kv.1 ≠ "x") →
      lexContexts (m.foldl getLexemeStep acc) = lexContexts acc ++ filterMapCx m := by
  induction m with
  | nil => intro acc _; simp [filterMapCx]
  | cons kv rest ih =>
    intro acc hx
    have hrest : ∀ kv' ∈ rest, kv'.1 ≠ "x" := fun kv' hk => hx kv' (List.mem_cons_of_mem _ hk)
    show lexContexts (rest.foldl getLexemeStep (getLexemeStep acc kv)) = _
    rw [ih _ hrest]
    cases hcx : cxidOf kv.1 with
    | some cxid =>
      have hstep : lexContexts (getLexemeStep acc kv) = lexContexts acc ++ [cxid] := by
        unfold getLexemeStep
        rw [hcx]
        unfold lexContexts
        rw [mapGet_mapSet_self]
      rw [hstep, filterMapCx_cons_some kv hcx]
      simp
    | none =>
      have halias := alias_ne_contexts (hx kv (List.mem_cons_self _ _))
      have hstep : lexContexts (getLexemeStep acc kv) = lexContexts acc := by
        unfold getLexemeStep
        rw [hcx]
        unfold lexContexts
        rw [mapGet_mapSet_ne _ _ (Ne.symm halias)]
      rw [hstep, filterMapCx_cons_none kv hcx]

/-- C9: the index-entry codec round-trips the context set. Writing a fresh
lexeme through the updateLexeme transact stores each context id cxid as a
distinctly-keyed `cx-<cxid>` field holding that context's docKey; getLexeme on
the resulting map returns contexts that are exactly the set of ids appearing
in cx- keys (equivalently, exactly the written context set); and
replicateLexeme's docKey re-population maps each context id back to exactly
the docKey that was written, making each context's shard key resolvable. -/
theorem C9_lexeme_context_roundtrip (docKeys dk₀ : List (String × String))
    (lexemeNew : Lexeme) (m : LexemeMap)
    (hgood : ∀ c ∈ lexemeNew.contexts, goodCxid c = true)
    (hdk : ∀ c ∈ lexemeNew.contexts, (mapGet docKeys c).isSome = true)
    (hm : updateLexemeTransact docKeys none lexemeNew [] = .ok m) :
    (∀ x, x ∈ lexContexts ((getLexemeObj m).getD []) ↔ x ∈ filterMapCx m) ∧
    (∀ x, x ∈ filterMapCx m ↔ x ∈ lexemeNew.contexts) ∧
    (∀ c d, c ∈ lexemeNew.contexts → mapGet docKeys c = some d →
      mapGet m ("cx-" ++ c) = some (.str d) ∧
      mapGet (replicateLexemeSetDocKeys m dk₀) c = some d) := by
  obtain rfl : m = updateLexemeScalar (updateLexemeScalar (updateLexemeScalar
      (addCxFold docKeys lexemeNew.contexts [])
      "created" "c" (.num lexemeNew.created))
      "lastUpdated" "l" (.num lexemeNew.lastUpdated))
      "updatedBy" "u" (.str lexemeNew.updatedBy) := by
    rw [updateLexemeTransact_fresh_ok docKeys lexemeNew hdk] at hm
    injection hm with h
    exact h.symm
  have hmemM : ∀ kv ∈ updateLexemeScalar (updateLexemeScalar (updateLexemeScalar
      (addCxFold docKeys lexemeNew.contexts [])
      "created" "c" (.num lexemeNew.created))
      "lastUpdated" "l" (.num lexemeNew.lastUpdated))
      "updatedBy" "u" (.str lexemeNew.updatedBy),
      (∃ c ∈ lexemeNew.contexts,
        kv = ("cx-" ++ c, YVal.str ((mapGet docKeys c).getD ""))) ∨
      kv.1 = "c" ∨ kv.1 = "l" ∨ kv.1 = "u" := by
    intro kv hkv
    rcases mem_updateLexemeScalar hkv with h2 | h2
    · rcases mem_updateLexemeScalar h2 with h3 | h3
      · rcases mem_updateLexemeScalar h3 with h4 | h4
        · rcases mem_addCxFold docKeys lexemeNew.contexts [] kv h4 with h5 | h5
          · simp at h5
          · exact Or.inl h5
        · exact Or.inr (Or.inl h4)
      · exact Or.inr (Or.inr (Or.inl h3))
    · exact Or.inr (Or.inr (Or.inr h2))
  have hxkeys : ∀ kv ∈ updateLexemeScalar (updateLexemeScalar (updateLexemeScalar
      (addCxFold docKeys lexemeNew.contexts [])
      "created" "c" (.num lexemeNew.created))
      "lastUpdated" "l" (.num lexemeNew.lastUpdated))
      "updatedBy" "u" (.str lexemeNew.updatedBy), kv.1 ≠ "x" := by
    intro kv hkv
    rcases hmemM kv hkv with ⟨c, hc, he⟩ | h | h | h
    · rw [he]
      show "cx-" ++ c ≠ "x"
      exact cx_ne_of_cxidOf_none (hgood c hc) (by decide)
    · rw [h]; decide
    · rw [h]; decide
    · rw [h]; decide
  have hmem2 : ∀ kv ∈ updateLexemeScalar (updateLexemeScalar
      (addCxFold docKeys lexemeNew.contexts [])
      "created" "c" (.num lexemeNew.created))
      "lastUpdated" "l" (.num lexemeNew.lastUpdated), kv.1 ≠ "updatedBy" := by
    intro kv hkv
    rcases mem_updateLexemeScalar hkv with h3 | h3
    · rcases mem_updateLexemeScalar h3 with h4 | h4
      · rcases mem_addCxFold docKeys lexemeNew.contexts [] kv h4 with h5 | h5
        · simp at h5
        · rcases h5 with ⟨c, hc, he⟩
          rw [he]
          show "cx-" ++ c ≠ "updatedBy"
          exact cx_ne_of_cxidOf_none (hgood c hc) (by decide)
      · rw [h4]; decide
    · rw [h3]; decide
  have hupd : mapGet (updateLexemeScalar (updateLexemeScalar
      (addCxFold docKeys lexemeNew.contexts [])
      "created" "c" (.num lexemeNew.created))
      "lastUpdated" "l" (.num lexemeNew.lastUpdated)) "updatedBy" = none :=
    mapGet_none_of_all_ne hmem2
  have hMeq : updateLexemeScalar (updateLexemeScalar (updateLexemeScalar
      (addCxFold docKeys lexemeNew.contexts [])
      "created" "c" (.num lexemeNew.created))
      "lastUpdated" "l" (.num lexemeNew.lastUpdated))
      "updatedBy" "u" (.str lexemeNew.updatedBy) =
      mapSet (updateLexemeScalar (updateLexemeScalar
        (addCxFold docKeys lexemeNew.contexts [])
        "created" "c" (.num lexemeNew.created))
        "lastUpdated" "l" (.num lexemeNew.lastUpdated))
        "u" (.str lexemeNew.updatedBy) :=
    updateLexemeScalar_of_get_ne (by rw [hupd]; simp)
  have hMne : updateLexemeScalar (updateLexemeScalar (updateLexemeScalar
      (addCxFold docKeys lexemeNew.contexts [])
      "created" "c" (.num lexemeNew.created))
      "lastUpdated" "l" (.num lexemeNew.lastUpdated))
      "updatedBy" "u" (.str lexemeNew.updatedBy) ≠ [] := by
    rw [hMeq]
    exact mapSet_ne_nil _ _ _
  have hMempty : (updateLexemeScalar (updateLexemeScalar (updateLexemeScalar
      (addCxFold docKeys lexemeNew.contexts [])
      "created" "c" (.num lexemeNew.created))
      "lastUpdated" "l" (.num lexemeNew.lastUpdated))
      "updatedBy" "u" (.str lexemeNew.updatedBy)).isEmpty = false := by
    cases hM2 : updateLexemeScalar (updateLexemeScalar (updateLexemeScalar
      (addCxFold docKeys lexemeNew.contexts [])
      "created" "c" (.num lexemeNew.created))
      "lastUpdated" "l" (.num lexemeNew.lastUpdated))
      "updatedBy" "u" (.str lexemeNew.updatedBy) with
    | nil => exact absurd hM2 hMne
    | cons a l => rfl
  have hfmx : filterMapCx (updateLexemeScalar (updateLexemeScalar (updateLexemeScalar
      (addCxFold docKeys lexemeNew.contexts [])
      "created" "c" (.num lexemeNew.created))
      "lastUpdated" "l" (.num lexemeNew.lastUpdated))
      "updatedBy" "u" (.str lexemeNew.updatedBy)) =
      filterMapCx (addCxFold docKeys lexemeNew.contexts []) := by
    rw [filterMapCx_updateLexemeScalar (by decide), filterMapCx_updateLexemeScalar (by decide),
      filterMapCx_updateLexemeScalar (by decide)]
  refine ⟨?_, ?_, ?_⟩
  · intro x
    unfold getLexemeObj
    rw [if_neg (by simp [hMempty])]
    show x ∈ lexContexts (List.foldl getLexemeStep [("contexts", JsValue.arr [])] _) ↔ _
    rw [lexContexts_foldl _ _ hxkeys]
    show x ∈ [] ++ filterMapCx _ ↔ _
    rw [List.nil_append]
  · intro x
    rw [hfmx, mem_filterMapCx_addCxFold docKeys lexemeNew.contexts [] x hgood]
    simp [filterMapCx]
  · intro c d hc hd
    have hgc := hgood c hc
    have hgetM0 : mapGet (addCxFold docKeys lexemeNew.contexts []) ("cx-" ++ c) =
        some (.str d) := by
      rw [mapGet_addCxFold docKeys lexemeNew.contexts [] c hgc hgood, if_pos hc, hd]
      rfl
    have hgetM : mapGet (updateLexemeScalar (updateLexemeScalar (updateLexemeScalar
        (addCxFold docKeys lexemeNew.contexts [])
        "created" "c" (.num lexemeNew.created))
        "lastUpdated" "l" (.num lexemeNew.lastUpdated))
        "updatedBy" "u" (.str lexemeNew.updatedBy)) ("cx-" ++ c) = some (.str d) := by
      rw [mapGet_updateLexemeScalar_ne (cx_ne_of_cxidOf_none hgc (by decide)),
        mapGet_updateLexemeScalar_ne (cx_ne_of_cxidOf_none hgc (by decide)),
        mapGet_updateLexemeScalar_ne (cx_ne_of_cxidOf_none hgc (by decide)), hgetM0]
    have hall : ∀ kv ∈ updateLexemeScalar (updateLexemeScalar (updateLexemeScalar
        (addCxFold docKeys lexemeNew.contexts [])
        "created" "c" (.num lexemeNew.created))
        "lastUpdated" "l" (.num lexemeNew.lastUpdated))
        "updatedBy" "u" (.str lexemeNew.updatedBy),
        cxidOf kv.1 = some c → strOfY kv.2 = d := by
      intro kv hkv hcx
      rcases hmemM kv hkv with ⟨c', hc', he⟩ | h | h | h
      · rw [he] at hcx
        rw [show ("cx-" ++ c', YVal.str ((mapGet docKeys c').getD "")).1 = "cx-" ++ c' from rfl,
          cxidOf_cx (hgood c' hc')] at hcx
        injection hcx with hcc
        subst hcc
        rw [he]
        show (mapGet docKeys c').getD "" = d
        rw [hd]
        rfl
      · rw [h] at hcx
        have : cxidOf "c" = none := by decide
        rw [this] at hcx
        simp at hcx
      · rw [h] at hcx
        have : cxidOf "l" = none := by decide
        rw [this] at hcx
        simp at hcx
      · rw [h] at hcx
        have : cxidOf "u" = none := by decide
        rw [this] at hcx
        simp at hcx
    have hex : ∃ kv ∈ updateLexemeScalar (updateLexemeScalar (updateLexemeScalar
        (addCxFold docKeys lexemeNew.contexts [])
        "created" "c" (.num lexemeNew.created))
        "lastUpdated" "l" (.num lexemeNew.lastUpdated))
        "updatedBy" "u" (.str lexemeNew.updatedBy), cxidOf kv.1 = some c :=
      ⟨("cx-" ++ c, .str d), mapGet_mem hgetM, by
        show cxidOf ("cx-" ++ c) = some c
        exact cxidOf_cx hgc⟩
    exact ⟨hgetM, setDocKeys_get _ dk₀ c d hall hex⟩

theorem C9_lexeme_context_roundtrip_witness :
    updateLexemeTransact [("X1", "P1")] none ⟨["X1"], 5, 6, "u1"⟩ [] =
      .ok [("cx-X1", .str "P1"), ("c", .num 5), ("l", .num 6), ("u", .str "u1")] ∧
    ("X1" ∈ lexContexts ((getLexemeObj
      [("cx-X1", .str "P1"), ("c", .num 5), ("l", .num 6), ("u", .str "u1")]).getD []) ↔
      "X1" ∈ ([("cx-X1", YVal.str "P1"), ("c", .num 5), ("l", .num 6),
        ("u", .str "u1")].filterMap (fun kv => cxidOf kv.1))) ∧
    mapGet (replicateLexemeSetDocKeys
      [("cx-X1", .str "P1"), ("c", .num 5), ("l", .num 6), ("u", .str "u1")] []) "X1" =
      some "P1" := by
  have hm : updateLexemeTransact [("X1", "P1")] none ⟨["X1"], 5, 6, "u1"⟩ [] =
      .ok [("cx-X1", .str "P1"), ("c", .num 5), ("l", .num 6), ("u", .str "u1")] := by
    rfl
  have h := C9_lexeme_context_roundtrip [("X1", "P1")] [] ⟨["X1"], 5, 6, "u1"⟩
    [("cx-X1", .str "P1"), ("c", .num 5), ("l", .num 6), ("u", .str "u1")]
    (by decide) (by decide) hm
  exact ⟨hm, h.1 "X1", (h.2.2 "X1" "P1" (by decide) (by decide)).2⟩

end Em
